/-
  Verification of the climate-guardian gamification core.

  Shallow embedding of the relevant JavaScript source:
  - src/utils/helpers.js      : calculateLevel, pointsForNextLevel, isYesterday, isToday
  - src/routes/missions.js    : GET /api/missions/today, POST /:id/complete,
                                POST /:id/skip, checkBadges
  - src/routes/progress.js    : GET /api/progress (level progress numbers)
  - src/routes/auth.js        : POST /api/auth/signup (referral block)

  Dates are modelled as natural day numbers (the source compares YYYY-MM-DD
  strings for equality only, and shifts by whole days).  CO2 amounts are
  rationals; points and counters are naturals.  Database tables are lists;
  SELECT ... LIMIT 1 with ORDER BY RANDOM() is modelled by an abstract
  choice function constrained to pick an element of its input list.
-/
import Mathlib

namespace ClimateGuardian

/-! ## Helpers (src/utils/helpers.js) -/

/-- Function `calculateLevel` from helpers.js: `Math.floor(Math.sqrt(points / 100)) + 1`.
For a natural number of points, `⌊√(p/100)⌋ = Nat.sqrt (p / 100)` with flooring
division, since `k ≤ √(p/100) ↔ 100k² ≤ p ↔ k² ≤ p / 100`. -/
def calculateLevel (points : Nat) : Nat :=
  Nat.sqrt (points / 100) + 1

/-- Function `pointsForNextLevel` from helpers.js: `Math.pow(currentLevel, 2) * 100`. -/
def pointsForNextLevel (currentLevel : Nat) : Nat :=
  currentLevel ^ 2 * 100

/-- Function `isYesterday` from helpers.js: the stored date string equals the string for
(today - 1 day).  On day numbers: `d + 1 = today`. -/
def isYesterday (dateString today : Nat) : Bool :=
  dateString + 1 == today

/-- Function `isToday` from helpers.js: the stored date string equals today's string. -/
def isToday (dateString today : Nat) : Bool :=
  today == dateString

/-! ## Data model -/

/-- Column `user_missions.status`: 'pending' (default), 'completed' or 'skipped'. -/
inductive AStatus where
  | pending
  | completed
  | skipped
deriving DecidableEq, Repr

/-- A row of the `missions` catalog (the columns the handlers read). -/
structure Mission where
  id : Nat
  co2Impact : ℚ
  points : Nat
  isActive : Bool
deriving DecidableEq, Repr

/-- A row of `user_missions` for the user under consideration. -/
structure UserMission where
  id : Nat
  missionId : Nat
  assignedDate : Nat
  status : AStatus
deriving DecidableEq, Repr

/-- Column `badges.requirement_type`. -/
inductive ReqType where
  | missions_completed
  | co2_saved
  | streak
  | referrals
  | special
  | premium
deriving DecidableEq, Repr

/-- A row of the `badges` catalog. -/
structure Badge where
  id : Nat
  requirementType : ReqType
  requirementValue : ℚ
  points : Nat
  isActive : Bool
deriving DecidableEq, Repr

/-- The `user_progress` row of the user under consideration. -/
structure Progress where
  totalCO2Saved : ℚ
  totalMissionsCompleted : Nat
  totalMissionsSkipped : Nat
  currentStreak : Nat
  longestStreak : Nat
  streakLastDate : Option Nat
  totalPoints : Nat
  level : Nat
  treesPlanted : Nat
deriving DecidableEq, Repr

/-- A row of `progress_log` for the user (keyed by date). -/
structure LogRow where
  date : Nat
  co2Saved : ℚ
  missionsCompleted : Nat
  pointsEarned : Nat
deriving DecidableEq, Repr

/-- The stats snapshot passed to `checkBadges` by the completion handler. -/
structure Stats where
  co2Saved : ℚ
  missionsCompleted : Nat
  streak : Nat
deriving DecidableEq, Repr

/-- Error outcomes of the handlers (the spec's names for the code's
distinct error responses). -/
inductive Err where
  | AssignmentNotFound
  | AlreadyCompleted
  | InvalidTransition
  | NoMissionsAvailable
deriving DecidableEq, Repr

/-- The per-user database state the mission routes touch. -/
structure World where
  missions : List Mission
  badges : List Badge
  assignments : List UserMission
  progress : Progress
  userBadges : List Nat
  progressLog : List LogRow
deriving DecidableEq, Repr

/-! ## Streak / progress update on completion (missions.js, complete handler) -/

/-- The streak computation of the complete handler:
`let newStreak = 1; if (streak_last_date) { if isYesterday then current+1
else if isToday then current }`. -/
def newStreakOnComplete (p : Progress) (today : Nat) : Nat :=
  match p.streakLastDate with
  | none => 1
  | some d =>
      if isYesterday d today then p.currentStreak + 1
      else if isToday d today then p.currentStreak
      else 1

/-- The `UPDATE user_progress` of the complete handler (missions.js:155-179):
new streak, longest streak, CO2, completion count, points, level, streak date. -/
def completeProgressUpdate (p : Progress) (today : Nat) (c : ℚ) (pts : Nat) :
    Progress :=
  let ns := newStreakOnComplete p today
  { p with
    totalCO2Saved := p.totalCO2Saved + c
    totalMissionsCompleted := p.totalMissionsCompleted + 1
    currentStreak := ns
    longestStreak := max ns p.longestStreak
    streakLastDate := some today
    totalPoints := p.totalPoints + pts
    level := calculateLevel (p.totalPoints + pts) }

/-- The `UPDATE user_progress` of the skip handler (missions.js:249-255):
increment skip count, zero the current streak, touch nothing else. -/
def skipProgressUpdate (p : Progress) : Progress :=
  { p with
    totalMissionsSkipped := p.totalMissionsSkipped + 1
    currentStreak := 0 }

/-- The `INSERT ... ON CONFLICT(user_id, date) DO UPDATE` upsert into
`progress_log` in the complete handler. -/
def upsertLog (log : List LogRow) (today : Nat) (c : ℚ) (pts : Nat) :
    List LogRow :=
  if log.any (fun r => r.date == today) then
    log.map fun r =>
      if r.date == today then
        { r with
          co2Saved := r.co2Saved + c
          missionsCompleted := r.missionsCompleted + 1
          pointsEarned := r.pointsEarned + pts }
      else r
  else log ++ [⟨today, c, 1, pts⟩]

/-! ## Badge evaluation (missions.js, checkBadges) -/

/-- The `switch (badge.requirement_type)` of `checkBadges`: `earned` starts
false and only the three listed cases can set it. -/
def badgeEarnedCheck (stats : Stats) (b : Badge) : Bool :=
  match b.requirementType with
  | .missions_completed => decide (b.requirementValue ≤ (stats.missionsCompleted : ℚ))
  | .co2_saved => decide (b.requirementValue ≤ stats.co2Saved)
  | .streak => decide (b.requirementValue ≤ (stats.streak : ℚ))
  | _ => false

/-- The list of badges newly earned by one `checkBadges` call: active badges
not already held whose check passes (the loop body's `earnedBadges.push`). -/
def checkBadges (badges : List Badge) (existing : List Nat) (stats : Stats) :
    List Badge :=
  (badges.filter fun b => b.isActive).filter fun b =>
    !(existing.contains b.id) && badgeEarnedCheck stats b

/-- Total bonus points added by `checkBadges` (one
`UPDATE user_progress SET total_points = total_points + ?` per earned badge). -/
def sumPoints (l : List Badge) : Nat :=
  l.foldl (fun acc b => acc + b.points) 0

/-! ## The three mission endpoints on a `World` -/

/-- POST /api/missions/:id/complete (missions.js:110-210).  Looks up the
assignment joined with its mission, rejects only an already-completed one,
then updates the assignment, the progress row, the progress log, and runs
`checkBadges` (which inserts user badges and adds their points). -/
def completeMission (w : World) (aid today : Nat) :
    Except Err (World × List Badge) :=
  match (w.assignments.find? fun um => um.id == aid).bind
      (fun um => (w.missions.find? fun m => m.id == um.missionId).map (um, ·)) with
  | none => .error .AssignmentNotFound
  | some (um, m) =>
      if um.status = AStatus.completed then .error .AlreadyCompleted
      else
        let assignments' := w.assignments.map fun a =>
          if a.id == aid then { a with status := AStatus.completed } else a
        let p := w.progress
        let p' := completeProgressUpdate p today m.co2Impact m.points
        let log' := upsertLog w.progressLog today m.co2Impact m.points
        let stats : Stats :=
          { co2Saved := p.totalCO2Saved + m.co2Impact
            missionsCompleted := p.totalMissionsCompleted + 1
            streak := newStreakOnComplete p today }
        let earned := checkBadges w.badges w.userBadges stats
        .ok ({ w with
                assignments := assignments'
                progress := { p' with totalPoints := p'.totalPoints + sumPoints earned }
                userBadges := w.userBadges ++ earned.map (·.id)
                progressLog := log' }, earned)

/-- POST /api/missions/:id/skip (missions.js:218-267).  Looks up the bare
assignment, rejects any non-pending one, marks it skipped and applies the
skip progress update.  No badge check, no log write. -/
def skipMission (w : World) (aid : Nat) : Except Err World :=
  match w.assignments.find? fun um => um.id == aid with
  | none => .error .AssignmentNotFound
  | some um =>
      if um.status = AStatus.pending then
        .ok { w with
              assignments := w.assignments.map fun a =>
                if a.id == aid then { a with status := AStatus.skipped } else a
              progress := skipProgressUpdate w.progress }
      else .error .InvalidTransition

/-- Mission ids assigned in the last 7 days:
`assigned_date >= date('now', '-7 days')`. -/
def recentMissionIds (assignments : List UserMission) (today : Nat) : List Nat :=
  (assignments.filter fun um => decide (today - 7 ≤ um.assignedDate)).map
    (·.missionId)

/-- The two selection queries of the today handler: first a random active
mission outside the recent list, then (if that returns nothing) a random
active mission with no recency restriction.  `choose` stands for
`ORDER BY RANDOM() LIMIT 1`. -/
def selectNewMission (choose : List Mission → Option Mission)
    (missions : List Mission) (recent : List Nat) : Option Mission :=
  match choose (missions.filter fun m => m.isActive && !(recent.contains m.id)) with
  | some m => some m
  | none => choose (missions.filter (·.isActive))

/-- GET /api/missions/today (missions.js:19-107).  Returns the existing
assignment for today unchanged; otherwise selects a mission, inserts a new
pending assignment with a fresh id, and re-reads it.  Returns the resulting
state and the assignment id served. -/
def getTodayAssignment (choose : List Mission → Option Mission)
    (freshId : Nat) (w : World) (today : Nat) : Except Err (World × Nat) :=
  match w.assignments.find? (fun um => um.assignedDate == today) with
  | some um => .ok (w, um.id)
  | none =>
      match selectNewMission choose w.missions
          (recentMissionIds w.assignments today) with
      | none => .error .NoMissionsAvailable
      | some nm =>
          let w' : World := { w with
            assignments :=
              w.assignments ++ [(⟨freshId, nm.id, today, .pending⟩ : UserMission)] }
          match w'.assignments.find? (fun um => um.assignedDate == today) with
          | some um => .ok (w', um.id)
          | none => .error .AssignmentNotFound

/-! ## Level progress numbers (progress.js:28-31) -/

/-- Quantity `pointsNeededForLevel` in GET /api/progress:
`pointsForNextLevel(level) - pointsForNextLevel(level - 1)`. -/
def pointsNeededForLevel (level : Nat) : Nat :=
  pointsForNextLevel level - pointsForNextLevel (level - 1)

/-- Quantity `pointsInCurrentLevel` in GET /api/progress:
`total_points - pointsForNextLevel(level - 1)` (as a signed value, as in JS). -/
def pointsInCurrentLevel (totalPoints level : Nat) : Int :=
  (totalPoints : Int) - (pointsForNextLevel (level - 1) : Int)

/-! ## Referral block of POST /api/auth/signup (auth.js) -/

/-- A row of `referrals` (status collapsed to `completed : Bool`). -/
structure Referral where
  referrerId : Nat
  referredId : Nat
  completed : Bool
deriving DecidableEq, Repr

/-- The referrer-side state the signup referral block touches. -/
structure RefState where
  badges : List Badge
  referrals : List Referral
  treesPlanted : Nat
  totalPoints : Nat
  userBadges : List Nat
deriving DecidableEq, Repr

/-- Query `SELECT COUNT(*) FROM referrals WHERE referrer_id = ? AND status = 'completed'`. -/
def completedReferralCount (rs : List Referral) (rid : Nat) : Nat :=
  (rs.filter fun r => r.referrerId == rid && r.completed).length

/-- The first-referral badge grant of the signup handler: only when the
(already updated) completed-referral count is exactly 1, look up the first
badge with requirement_type 'referrals' and requirement_value 1 and insert it
idempotently (`ON CONFLICT DO NOTHING`).  No points are added and no other
badge is considered. -/
def referralBadgeGrant (st : RefState) (referrerId : Nat) : RefState :=
  if completedReferralCount st.referrals referrerId == 1 then
    match (st.badges.filter fun b =>
        b.requirementType == ReqType.referrals && b.requirementValue == 1).head? with
    | some b =>
        { st with
          userBadges :=
            if st.userBadges.contains b.id then st.userBadges
            else st.userBadges ++ [b.id] }
    | none => st
  else st

/-- The `if (referrerId)` block of the signup handler: insert a completed
referral row, increment the referrer's trees, then run the first-referral
badge grant. -/
def applyReferral (st : RefState) (referrerId newUserId : Nat) : RefState :=
  referralBadgeGrant
    { st with
      referrals := st.referrals ++ [⟨referrerId, newUserId, true⟩]
      treesPlanted := st.treesPlanted + 1 }
    referrerId

/-! ## Spec-side badge evaluator (for comparison with `checkBadges`) -/

/-- Modelled from the spec: the progress value the *spec* says the evaluator
reads for each requirement type — including `referralCount` for referrals
badges; none for special/premium. -/
def specBadgeProgress (stats : Stats) (referralCount : Nat) (b : Badge) :
    Option ℚ :=
  match b.requirementType with
  | .missions_completed => some stats.missionsCompleted
  | .co2_saved => some stats.co2Saved
  | .streak => some stats.streak
  | .referrals => some referralCount
  | .special => none
  | .premium => none

/-- Modelled from the spec: the set of badges the spec's evaluator would newly
earn, given the independently computed `referralCount`. -/
def checkBadgesSpec (badges : List Badge) (existing : List Nat) (stats : Stats)
    (referralCount : Nat) : List Badge :=
  (badges.filter fun b => b.isActive).filter fun b =>
    !(existing.contains b.id) &&
      (match specBadgeProgress stats referralCount b with
       | some prog => decide (b.requirementValue ≤ prog)
       | none => false)

/-! ## Claim C1: the completion transition -/

/-- C1: completing a pending assignment on day D with mission points P and
CO2 impact C updates the ledger as specified: the new current streak is 1 when
streakLastDate is null, currentStreak+1 when streakLastDate is D-1, unchanged
when it is D, and 1 otherwise; longestStreak becomes the max of the previous
longestStreak and the new streak; totalCO2Saved grows by C,
totalMissionsCompleted by 1, totalPoints by P; level is recomputed from the
new totalPoints; streakLastDate becomes D. -/
theorem complete_transition_spec (p : Progress) (D : Nat) (C : ℚ) (P : Nat) :
    (completeProgressUpdate p D C P).currentStreak =
      (match p.streakLastDate with
       | none => 1
       | some d =>
           if d + 1 = D then p.currentStreak + 1
           else if d = D then p.currentStreak
           else 1)
    ∧ (completeProgressUpdate p D C P).longestStreak =
        max p.longestStreak ((completeProgressUpdate p D C P).currentStreak)
    ∧ (completeProgressUpdate p D C P).totalCO2Saved = p.totalCO2Saved + C
    ∧ (completeProgressUpdate p D C P).totalMissionsCompleted =
        p.totalMissionsCompleted + 1
    ∧ (completeProgressUpdate p D C P).totalPoints = p.totalPoints + P
    ∧ (completeProgressUpdate p D C P).level =
        calculateLevel ((completeProgressUpdate p D C P).totalPoints)
    ∧ (completeProgressUpdate p D C P).streakLastDate = some D := by
  refine ⟨?_, ?_, rfl, rfl, rfl, rfl, rfl⟩
  · cases h : p.streakLastDate with
    | none => simp [completeProgressUpdate, newStreakOnComplete, h]
    | some d =>
        simp only [completeProgressUpdate, newStreakOnComplete, h,
          isYesterday, isToday]
        by_cases h1 : d + 1 = D
        · simp [h1]
        · by_cases h2 : d = D
          · simp [h1, h2]
          · have h2' : ¬ D = d := fun hh => h2 hh.symm
            simp [h1, h2, h2']
  · simp [completeProgressUpdate, Nat.max_comm]

/-! ## Claim C5: level thresholds and progress-bar numbers -/

/-- C5 (counterexample): the claim says `pointsForLevel(L) = L^2 * 100` is the
least totalPoints at which level L is first reached, and that the reported
"points needed for next level" equals `pointsForLevel(level+1) -
pointsForLevel(level)`.  Both fail at level 1: `calculateLevel 100 = 2`, and
the handler reports `pointsForNextLevel 1 - pointsForNextLevel 0 = 100`,
not `pointsForNextLevel 2 - pointsForNextLevel 1 = 300`. -/
theorem level_threshold_cex :
    calculateLevel (pointsForNextLevel 1) ≠ 1
    ∧ pointsNeededForLevel 1 ≠
        pointsForNextLevel (1 + 1) - pointsForNextLevel 1 := by
  decide

/-- C5 (amended): `pointsForNextLevel L = L^2 * 100` is the least totalPoints
at which level L+1 (not L) is first reached; the reported "points needed for
next level" equals `pointsForNextLevel level - pointsForNextLevel (level-1)`;
the reported intra-level progress equals
`totalPoints - pointsForNextLevel (level-1)`. -/
theorem level_threshold_amended (L : Nat) (hL : 1 ≤ L) :
    calculateLevel (pointsForNextLevel L) = L + 1
    ∧ calculateLevel (pointsForNextLevel L - 1) = L
    ∧ (∀ q, q < pointsForNextLevel L → calculateLevel q ≤ L)
    ∧ pointsNeededForLevel L =
        pointsForNextLevel L - pointsForNextLevel (L - 1)
    ∧ (∀ tp, pointsInCurrentLevel tp L =
        (tp : Int) - (pointsForNextLevel (L - 1) : Int)) := by
  obtain ⟨k, rfl⟩ : ∃ k, L = k + 1 := ⟨L - 1, by omega⟩
  refine ⟨?_, ?_, ?_, rfl, fun tp => rfl⟩
  · unfold calculateLevel pointsForNextLevel
    rw [Nat.mul_div_cancel _ (by norm_num), Nat.sqrt_eq']
  · unfold calculateLevel pointsForNextLevel
    have h1 : (k + 1) ^ 2 * 100 - 1 = 99 + (k ^ 2 + 2 * k) * 100 := by
      have : (k + 1) ^ 2 = k ^ 2 + 2 * k + 1 := by ring
      rw [this]
      generalize k ^ 2 = a
      omega
    rw [h1, Nat.add_mul_div_right _ _ (by norm_num)]
    have h2 : (99 : Nat) / 100 = 0 := by norm_num
    rw [h2, Nat.zero_add]
    have h3 : Nat.sqrt (k ^ 2 + 2 * k) = k :=
      Nat.sqrt_add_eq' k (by omega)
    rw [h3]
  · intro q hq
    unfold calculateLevel
    have hdiv : q / 100 < (k + 1) ^ 2 := by
      rw [Nat.div_lt_iff_lt_mul (by norm_num)]
      calc q < pointsForNextLevel (k + 1) := hq
        _ = (k + 1) ^ 2 * 100 := rfl
    have := Nat.sqrt_lt'.mpr hdiv
    omega

/-- C5 (witness for the amended theorem): instantiated at level 2. -/
theorem level_threshold_amended_witness :
    calculateLevel (pointsForNextLevel 2) = 3
    ∧ calculateLevel (pointsForNextLevel 2 - 1) = 2 := by
  have h := level_threshold_amended 2 (by decide)
  exact ⟨h.1, h.2.1⟩

/-! ## Claim C10: a completion can keep the streak at 0 -/

/-- C10: when streakLastDate is already today (reachable by completing one
assignment and then skipping another the same day: the skip zeroes the streak
but leaves streakLastDate at today) and currentStreak is 0, a further
completion takes the streakLastDate-equals-today branch and keeps
currentStreak at 0 rather than setting it to 1.  The second conjunct shows the
skip indeed preserves streakLastDate while zeroing the streak, and the third
conjunct replays the whole complete-skip-complete scenario from any state. -/
theorem complete_can_keep_zero_streak (p q : Progress) (D : Nat) (C C' : ℚ)
    (P P' : Nat) (h1 : p.streakLastDate = some D) (h2 : p.currentStreak = 0) :
    (completeProgressUpdate p D C P).currentStreak = 0
    ∧ ((skipProgressUpdate p).streakLastDate = some D
        ∧ (skipProgressUpdate p).currentStreak = 0)
    ∧ (completeProgressUpdate
        (skipProgressUpdate (completeProgressUpdate q D C' P')) D C P).currentStreak
        = 0 := by
  refine ⟨?_, ⟨h1, rfl⟩, ?_⟩
  · simp [completeProgressUpdate, newStreakOnComplete, h1, isYesterday, isToday, h2]
  · simp [completeProgressUpdate, skipProgressUpdate, newStreakOnComplete,
      isYesterday, isToday]

/-- C10 (witness): a user who completed today (streakLastDate = day 5) and
then skipped (currentStreak 0) stays at streak 0 on a further completion. -/
theorem complete_can_keep_zero_streak_witness :
    (completeProgressUpdate ⟨0, 1, 1, 0, 4, some 5, 10, 1, 0⟩ 5 1 10).currentStreak
      = 0 := by
  exact (complete_can_keep_zero_streak ⟨0, 1, 1, 0, 4, some 5, 10, 1, 0⟩
    ⟨0, 0, 0, 0, 0, none, 0, 1, 0⟩ 5 1 1 10 10 rfl rfl).1

/-! ## Claim C2: assignment state transitions -/

/-- An active mission used by the C2 concrete states. -/
def c2Mission : Mission := ⟨1, 5/2, 10, true⟩

/-- A progress row used by the C2 concrete states. -/
def c2Progress : Progress := ⟨0, 0, 0, 5, 5, some 4, 0, 1, 0⟩

/-- A world whose only assignment (id 7) is already skipped. -/
def c2WorldSkipped : World :=
  ⟨[c2Mission], [], [⟨7, 1, 5, AStatus.skipped⟩], c2Progress, [], []⟩

/-- C2 (counterexample): the claim says skipped is terminal — "a skipped
assignment can never become completed".  But the complete handler rejects only
an already-completed assignment, so completing the skipped assignment id 7
succeeds and marks it completed. -/
theorem skipped_not_terminal_cex :
    c2WorldSkipped.assignments = [⟨7, 1, 5, AStatus.skipped⟩]
    ∧ (completeMission c2WorldSkipped 7 5).toOption.map
        (fun out => out.1.assignments) = some [⟨7, 1, 5, AStatus.completed⟩] := by
  exact ⟨rfl, rfl⟩

/-- C2 (amended): completing an already-completed assignment signals
AlreadyCompleted; skipping a non-pending assignment signals InvalidTransition;
but the only guard on completion is "not already completed", so a skipped
assignment CAN still be completed — skipped is terminal for skip but not for
complete. -/
theorem transition_guards_amended (w : World) (aid today : Nat)
    (um : UserMission) (m : Mission)
    (hfind : w.assignments.find? (fun a => a.id == aid) = some um)
    (hm : w.missions.find? (fun x => x.id == um.missionId) = some m) :
    (um.status = AStatus.completed →
      completeMission w aid today = Except.error Err.AlreadyCompleted)
    ∧ (um.status ≠ AStatus.pending →
        skipMission w aid = Except.error Err.InvalidTransition)
    ∧ (um.status = AStatus.skipped →
        ∃ out, completeMission w aid today = Except.ok out) := by
  refine ⟨?_, ?_, ?_⟩
  · intro h
    unfold completeMission
    rw [hfind]
    dsimp only [Option.bind]
    rw [hm]
    dsimp only [Option.map]
    rw [if_pos h]
  · intro h
    unfold skipMission
    rw [hfind]
    dsimp only
    rw [if_neg h]
  · intro h
    unfold completeMission
    rw [hfind]
    dsimp only [Option.bind]
    rw [hm]
    dsimp only [Option.map]
    rw [if_neg (by rw [h]; exact fun hh => AStatus.noConfusion hh)]
    exact ⟨_, rfl⟩

/-- C2 (witness for the amended theorem): on the concrete skipped assignment,
skip is rejected with InvalidTransition while complete succeeds. -/
theorem transition_guards_amended_witness :
    skipMission c2WorldSkipped 7 = Except.error Err.InvalidTransition
    ∧ (completeMission c2WorldSkipped 7 5).toOption.isSome = true := by
  have h := transition_guards_amended c2WorldSkipped 7 5
    ⟨7, 1, 5, AStatus.skipped⟩ c2Mission rfl rfl
  refine ⟨h.2.1 (by decide), ?_⟩
  obtain ⟨out, hout⟩ := h.2.2 rfl
  rw [hout]
  rfl

/-! ## Claim C9: the skip transition and its frame -/

/-- C9: a successful skip of a pending assignment increments
totalMissionsSkipped by exactly 1 and zeroes currentStreak, while
longestStreak, streakLastDate, totalPoints, totalCO2Saved,
totalMissionsCompleted, level, the progress log and the user-badge set are
all unchanged (in particular no badge evaluation runs). -/
theorem skip_frame (w : World) (aid : Nat) (um : UserMission)
    (hfind : w.assignments.find? (fun a => a.id == aid) = some um)
    (hp : um.status = AStatus.pending) :
    ∃ w', skipMission w aid = Except.ok w'
      ∧ w'.progress.totalMissionsSkipped = w.progress.totalMissionsSkipped + 1
      ∧ w'.progress.currentStreak = 0
      ∧ w'.progress.longestStreak = w.progress.longestStreak
      ∧ w'.progress.streakLastDate = w.progress.streakLastDate
      ∧ w'.progress.totalPoints = w.progress.totalPoints
      ∧ w'.progress.totalCO2Saved = w.progress.totalCO2Saved
      ∧ w'.progress.totalMissionsCompleted = w.progress.totalMissionsCompleted
      ∧ w'.progress.level = w.progress.level
      ∧ w'.progressLog = w.progressLog
      ∧ w'.userBadges = w.userBadges := by
  have hskip : skipMission w aid = Except.ok
      { w with
        assignments := w.assignments.map fun a =>
          if a.id == aid then { a with status := AStatus.skipped } else a
        progress := skipProgressUpdate w.progress } := by
    unfold skipMission
    rw [hfind]
    dsimp only
    rw [if_pos hp]
  exact ⟨_, hskip, rfl, rfl, rfl, rfl, rfl, rfl, rfl, rfl, rfl, rfl⟩

/-- A world with a mid-streak progress row and a pending assignment, for the
C9 witness. -/
def c9World : World :=
  ⟨[], [], [⟨7, 1, 5, AStatus.pending⟩],
    ⟨20, 4, 1, 3, 8, some 4, 70, 1, 2⟩, [9], [⟨4, 5, 1, 20⟩]⟩

/-- C9 (witness): the skip theorem instantiated on the concrete world: the
skip count goes from 1 to 2, the streak from 3 to 0, and points, longest
streak and badges are untouched. -/
theorem skip_frame_witness :
    (skipMission c9World 7).toOption.map
        (fun w' => (w'.progress.totalMissionsSkipped, w'.progress.currentStreak,
          w'.progress.totalPoints, w'.progress.longestStreak, w'.userBadges))
      = some (2, 0, 70, 8, [9]) := by
  obtain ⟨w', hw, h1, h2, h3, h4, h5, h6, h7, h8, h9, h10⟩ :=
    skip_frame c9World 7 ⟨7, 1, 5, AStatus.pending⟩ rfl rfl
  rw [hw]
  dsimp only [Except.toOption, Option.map]
  rw [h1, h2, h5, h3, h10]
  rfl

/-! ## Claim C3: level consistency with totalPoints -/

/-- A zeroed progress row (as created at signup). -/
def c3Progress : Progress := ⟨0, 0, 0, 0, 0, none, 0, 1, 0⟩

/-- A world whose only badge (50 bonus points) is earned by the first
completion, pushing totalPoints from 90 to 140 without a level recompute. -/
def c3World : World :=
  ⟨[⟨2, 1, 90, true⟩], [⟨1, ReqType.missions_completed, 1, 50, true⟩],
    [⟨3, 2, 5, AStatus.pending⟩], c3Progress, [], []⟩

/-- C3 (counterexample): completing the mission of `c3World` stores
totalPoints 140 (90 mission points + 50 badge bonus points) but level 1 =
calculateLevel 90, while calculateLevel 140 = 2: the stored level is
inconsistent with the stored points right after the badge evaluation of this
very completion. -/
theorem level_not_invariant_cex :
    (completeMission c3World 3 5).toOption.map
        (fun out => (out.1.progress.level, out.1.progress.totalPoints))
      = some (1, 140)
    ∧ calculateLevel 140 ≠ 1 :=
  ⟨rfl, by decide⟩

/-- C3 (amended): a skip preserves level consistency, and a completion stores
level = calculateLevel of the pre-bonus totalPoints — so when the badge
evaluation earns nothing the invariant holds after completion, but badge
bonus points are added to totalPoints without a level recompute. -/
theorem level_consistency_amended :
    (∀ w aid w', skipMission w aid = Except.ok w' →
      w.progress.level = calculateLevel w.progress.totalPoints →
      w'.progress.level = calculateLevel w'.progress.totalPoints)
    ∧ (∀ w aid today w' earned,
        completeMission w aid today = Except.ok (w', earned) →
        w'.progress.level =
          calculateLevel (w'.progress.totalPoints - sumPoints earned))
    ∧ (∀ w aid today w',
        completeMission w aid today = Except.ok (w', []) →
        w'.progress.level = calculateLevel w'.progress.totalPoints) := by
  have hcomp : ∀ w aid today w' earned,
      completeMission w aid today = Except.ok (w', earned) →
      w'.progress.level =
        calculateLevel (w'.progress.totalPoints - sumPoints earned) := by
    intro w aid today w' earned h
    unfold completeMission at h
    split at h
    · simp at h
    · split at h
      · simp at h
      · simp only [Except.ok.injEq, Prod.mk.injEq] at h
        obtain ⟨hw, he⟩ := h
        subst hw
        subst he
        dsimp only [completeProgressUpdate]
        rw [Nat.add_sub_cancel]
  refine ⟨?_, hcomp, ?_⟩
  · intro w aid w' h hinv
    unfold skipMission at h
    split at h
    · simp at h
    · split at h
      · simp only [Except.ok.injEq] at h
        subst h
        exact hinv
      · simp at h
  · intro w aid today w' h
    have := hcomp w aid today w' [] h
    simpa [sumPoints] using this

/-- A consistent world (level 1, 70 points) with a pending assignment, for
the C3 witness. -/
def c3SkipWorld : World :=
  ⟨[], [], [⟨7, 1, 5, AStatus.pending⟩],
    ⟨20, 4, 1, 3, 8, some 4, 70, 1, 2⟩, [], []⟩

/-- C3 (witness for the amended theorem): skipping in the concrete consistent
world leaves the level consistent with the points. -/
theorem level_consistency_amended_witness :
    (skipMission c3SkipWorld 7).toOption.map
        (fun w' => w'.progress.level == calculateLevel w'.progress.totalPoints)
      = some true := by
  obtain ⟨w', hw⟩ : ∃ w', skipMission c3SkipWorld 7 = Except.ok w' := ⟨_, rfl⟩
  have hc := level_consistency_amended.1 c3SkipWorld 7 w' hw (by decide)
  rw [hw]
  dsimp only [Except.toOption, Option.map]
  simp [hc]

/-! ## Claim C4: what the badge evaluator actually evaluates -/

/-- The seeded Tree Planter badge b13: requirement_type 'referrals',
requirement_value 1, 50 bonus points. -/
def c4Badge : Badge := ⟨13, ReqType.referrals, 1, 50, true⟩

/-- A stats snapshot with all completion-side numbers zero. -/
def c4Stats : Stats := ⟨0, 0, 0⟩

/-- C4 (counterexample): with a completed-referral count of 1, the
spec-described evaluator earns the referrals badge b13, but checkBadges has
no referrals branch (its stats snapshot does not even carry a referral
count), so a referrals badge is never auto-earned by the evaluator. -/
theorem referrals_not_evaluated_cex :
    checkBadgesSpec [c4Badge] [] c4Stats 1 = [c4Badge]
    ∧ checkBadges [c4Badge] [] c4Stats = [] :=
  ⟨rfl, rfl⟩

/-- Characterization of the boolean earning check: only the three
completion-side requirement types can fire. -/
theorem badgeEarnedCheck_eq_true (stats : Stats) (b : Badge) :
    badgeEarnedCheck stats b = true ↔
      ((b.requirementType = ReqType.missions_completed
          ∧ b.requirementValue ≤ (stats.missionsCompleted : ℚ))
        ∨ (b.requirementType = ReqType.co2_saved
          ∧ b.requirementValue ≤ stats.co2Saved)
        ∨ (b.requirementType = ReqType.streak
          ∧ b.requirementValue ≤ (stats.streak : ℚ))) := by
  unfold badgeEarnedCheck
  cases h : b.requirementType <;> simp [h]

/-- C4 (amended): a badge is newly earned by checkBadges exactly when it is
an active catalog badge, not already held, whose requirement type is one of
missions_completed / co2_saved / streak with the corresponding stat at or
above the threshold — referrals badges, like special/premium ones, are never
auto-evaluated.  Each earned badge's id is appended to the user-badge set
with its bonus points added to totalPoints (on top of the mission's points),
and held badges are never removed or re-inserted. -/
theorem badge_evaluation_amended :
    (∀ badges existing stats (b : Badge),
      b ∈ checkBadges badges existing stats ↔
        (b ∈ badges ∧ b.isActive = true ∧ ¬ b.id ∈ existing ∧
          ((b.requirementType = ReqType.missions_completed
              ∧ b.requirementValue ≤ (stats.missionsCompleted : ℚ))
            ∨ (b.requirementType = ReqType.co2_saved
              ∧ b.requirementValue ≤ stats.co2Saved)
            ∨ (b.requirementType = ReqType.streak
              ∧ b.requirementValue ≤ (stats.streak : ℚ)))))
    ∧ (∀ badges existing stats (b : Badge),
        b ∈ checkBadges badges existing stats → ¬ b.id ∈ existing)
    ∧ (∀ w aid today w' earned,
        completeMission w aid today = Except.ok (w', earned) →
        w'.userBadges = w.userBadges ++ earned.map (fun b => b.id)
        ∧ ∀ x ∈ w.userBadges, x ∈ w'.userBadges)
    ∧ (∀ w aid today w' earned um m,
        w.assignments.find? (fun a => a.id == aid) = some um →
        w.missions.find? (fun x => x.id == um.missionId) = some m →
        completeMission w aid today = Except.ok (w', earned) →
        w'.progress.totalPoints =
          w.progress.totalPoints + m.points + sumPoints earned) := by
  have hmain : ∀ badges existing stats (b : Badge),
      b ∈ checkBadges badges existing stats ↔
        (b ∈ badges ∧ b.isActive = true ∧ ¬ b.id ∈ existing ∧
          ((b.requirementType = ReqType.missions_completed
              ∧ b.requirementValue ≤ (stats.missionsCompleted : ℚ))
            ∨ (b.requirementType = ReqType.co2_saved
              ∧ b.requirementValue ≤ stats.co2Saved)
            ∨ (b.requirementType = ReqType.streak
              ∧ b.requirementValue ≤ (stats.streak : ℚ)))) := by
    intro badges existing stats b
    unfold checkBadges
    simp only [List.mem_filter, Bool.and_eq_true, Bool.not_eq_true',
      badgeEarnedCheck_eq_true]
    simp [and_assoc]
  refine ⟨hmain, ?_, ?_, ?_⟩
  · intro badges existing stats b hb
    exact ((hmain badges existing stats b).1 hb).2.2.1
  · intro w aid today w' earned h
    unfold completeMission at h
    split at h
    · simp at h
    · split at h
      · simp at h
      · simp only [Except.ok.injEq, Prod.mk.injEq] at h
        obtain ⟨hw, he⟩ := h
        subst hw
        subst he
        exact ⟨rfl, fun x hx => List.mem_append_left _ hx⟩
  · intro w aid today w' earned um m hfind hm h
    unfold completeMission at h
    rw [hfind] at h
    dsimp only [Option.bind] at h
    rw [hm] at h
    dsimp only [Option.map] at h
    split at h
    · simp at h
    · simp only [Except.ok.injEq, Prod.mk.injEq] at h
      obtain ⟨hw, he⟩ := h
      subst hw
      subst he
      rfl

/-- The seeded First Step badge b1: one completed mission, 10 bonus points. -/
def c4MC : Badge := ⟨1, ReqType.missions_completed, 1, 10, true⟩

/-- A world in which the first completion earns `c4MC`, for the C4 witness. -/
def c4World : World :=
  ⟨[⟨2, 1, 90, true⟩], [c4MC], [⟨3, 2, 5, AStatus.pending⟩], c3Progress, [], []⟩

/-- C4 (witness for the amended theorem): completing in the concrete world
appends exactly the ids of the badges the call reports as earned to the
user-badge set, and adds the mission's 90 points plus the earned badges'
bonus points to totalPoints. -/
theorem badge_evaluation_amended_witness :
    (completeMission c4World 3 5).toOption.map
        (fun out =>
          (out.1.userBadges == c4World.userBadges ++ out.2.map (fun b => b.id),
            out.1.progress.totalPoints
              == c4World.progress.totalPoints + 90 + sumPoints out.2))
      = some (true, true) := by
  obtain ⟨w', earned, hw⟩ :
      ∃ w' earned, completeMission c4World 3 5 = Except.ok (w', earned) :=
    ⟨_, _, rfl⟩
  have h := (badge_evaluation_amended.2.2.1 c4World 3 5 w' earned hw).1
  have hp := badge_evaluation_amended.2.2.2 c4World 3 5 w' earned
    (⟨3, 2, 5, AStatus.pending⟩ : UserMission) (⟨2, 1, 90, true⟩ : Mission)
    rfl rfl hw
  rw [hw]
  dsimp only [Except.toOption, Option.map]
  simp [h, hp]

/-! ## Claim C6: the referral reward hook -/

/-- The seeded Tree Planter badge b13 (requirement referrals 1, 50 points),
catalog entry for the C6 states. -/
def c6B13 : Badge := ⟨13, ReqType.referrals, 1, 50, true⟩

/-- The seeded Community Builder badge b14 (requirement referrals 5,
150 points), catalog entry for the C6 states. -/
def c6B14 : Badge := ⟨14, ReqType.referrals, 5, 150, true⟩

/-- Referrer user 1 with no referrals, no badges and 0 points. -/
def c6State : RefState := ⟨[c6B13, c6B14], [], 0, 0, []⟩

/-- C6 (counterexample): on the first referral the Tree Planter badge is
granted but its 50 points are NOT added to the referrer's totalPoints; and
after five completed referrals the badge set is still just [13], although the
claim's badge evaluation would have granted the Community Builder badge
(requirement 5 ≤ 5). -/
theorem referral_no_points_cex :
    (applyReferral c6State 1 2).userBadges = [13]
    ∧ (applyReferral c6State 1 2).totalPoints = 0
    ∧ c6State.totalPoints = 0
    ∧ c6B13.points = 50
    ∧ (applyReferral (applyReferral (applyReferral (applyReferral
        (applyReferral c6State 1 2) 1 3) 1 4) 1 5) 1 6).userBadges = [13]
    ∧ completedReferralCount ((applyReferral (applyReferral (applyReferral
        (applyReferral (applyReferral c6State 1 2) 1 3) 1 4) 1 5) 1 6).referrals) 1
        = 5
    ∧ c6B14.requirementValue ≤ (5 : ℚ) :=
  ⟨rfl, rfl, rfl, rfl, rfl, rfl, by decide⟩

/-- C6 (amended): a signup with a valid referrer code records a completed
Referral row and increments the referrer's treesPlanted by 1, but no badge
evaluator runs and no points are ever added: only when the referrer's
completed-referral count becomes exactly 1 is the first catalog badge with
requirement type referrals and requirement value 1 granted (idempotently);
on any later referral the badge set is untouched. -/
theorem referral_hook_amended (st : RefState) (rid nid : Nat) :
    (applyReferral st rid nid).referrals = st.referrals ++ [⟨rid, nid, true⟩]
    ∧ (applyReferral st rid nid).treesPlanted = st.treesPlanted + 1
    ∧ (applyReferral st rid nid).totalPoints = st.totalPoints
    ∧ (applyReferral st rid nid).badges = st.badges
    ∧ (completedReferralCount (st.referrals ++ [⟨rid, nid, true⟩]) rid ≠ 1 →
        (applyReferral st rid nid).userBadges = st.userBadges)
    ∧ (∀ b, completedReferralCount (st.referrals ++ [⟨rid, nid, true⟩]) rid = 1 →
        (st.badges.filter fun x =>
            x.requirementType == ReqType.referrals && x.requirementValue == 1).head?
          = some b →
        (applyReferral st rid nid).userBadges =
          (if st.userBadges.contains b.id then st.userBadges
           else st.userBadges ++ [b.id])) := by
  have hframe : ∀ (s : RefState) (r : Nat),
      (referralBadgeGrant s r).referrals = s.referrals
      ∧ (referralBadgeGrant s r).treesPlanted = s.treesPlanted
      ∧ (referralBadgeGrant s r).totalPoints = s.totalPoints
      ∧ (referralBadgeGrant s r).badges = s.badges := by
    intro s r
    unfold referralBadgeGrant
    split
    · split
      · exact ⟨rfl, rfl, rfl, rfl⟩
      · exact ⟨rfl, rfl, rfl, rfl⟩
    · exact ⟨rfl, rfl, rfl, rfl⟩
  refine ⟨(hframe _ _).1, (hframe _ _).2.1, (hframe _ _).2.2.1,
    (hframe _ _).2.2.2, ?_, ?_⟩
  · intro h
    unfold applyReferral referralBadgeGrant
    dsimp only
    rw [if_neg (by simpa using h)]
  · intro b hc hf
    unfold applyReferral referralBadgeGrant
    dsimp only
    rw [if_pos (by simpa using hc), hf]

/-- C6 (witness for the amended theorem): the first referral of user 1 plants
one tree and grants badge 13 without touching points. -/
theorem referral_hook_amended_witness :
    (applyReferral c6State 1 2).treesPlanted = 1
    ∧ (applyReferral c6State 1 2).totalPoints = 0
    ∧ (applyReferral c6State 1 2).userBadges = [13] := by
  have h := referral_hook_amended c6State 1 2
  refine ⟨h.2.1, h.2.2.1, ?_⟩
  have h6 := h.2.2.2.2.2 c6B13 (by decide) rfl
  rw [h6]
  rfl

/-! ## Claim C7: idempotence of the today handler -/

/-- C7: getTodayAssignment is idempotent within a day: an assignment already
present for (user, today) is returned unchanged with no state mutation, and a
second call on the same day (with any fresh id and any random choice) returns
the identical assignment id and the identical state. -/
theorem getToday_idempotent (choose choose' : List Mission → Option Mission)
    (f f' : Nat) (w : World) (today : Nat) :
    (∀ um, w.assignments.find? (fun a => a.assignedDate == today) = some um →
      getTodayAssignment choose f w today = Except.ok (w, um.id))
    ∧ (∀ w₁ id₁, getTodayAssignment choose f w today = Except.ok (w₁, id₁) →
        getTodayAssignment choose' f' w₁ today = Except.ok (w₁, id₁)) := by
  constructor
  · intro um h
    unfold getTodayAssignment
    rw [h]
  · intro w₁ id₁ h
    unfold getTodayAssignment at h ⊢
    split at h
    · next um heq =>
        simp only [Except.ok.injEq, Prod.mk.injEq] at h
        obtain ⟨hw, hid⟩ := h
        subst hw
        subst hid
        rw [heq]
    · next heq =>
        split at h
        · simp at h
        · next nm hsel =>
            dsimp only at h
            split at h
            · next um2 heq2 =>
                simp only [Except.ok.injEq, Prod.mk.injEq] at h
                obtain ⟨hw, hid⟩ := h
                subst hw
                subst hid
                rw [heq2]
            · simp at h

/-- A world holding a pending assignment (id 7) for day 3, for the C7
witness. -/
def c7World : World :=
  ⟨[⟨1, 1, 10, true⟩], [], [⟨7, 1, 3, AStatus.pending⟩], c3Progress, [], []⟩

/-- C7 (witness): with an assignment already present for today, the call
returns it unchanged, and a repeated call returns the same id and state. -/
theorem getToday_idempotent_witness :
    getTodayAssignment (fun l => l.head?) 9 c7World 3 = Except.ok (c7World, 7)
    ∧ getTodayAssignment (fun l => l.head?) 11 c7World 3
        = Except.ok (c7World, 7) := by
  have h1 := (getToday_idempotent (fun l => l.head?) (fun l => l.head?)
    9 11 c7World 3).1 ⟨7, 1, 3, AStatus.pending⟩ rfl
  have h2 := (getToday_idempotent (fun l => l.head?) (fun l => l.head?)
    9 11 c7World 3).2 c7World 7 h1
  exact ⟨h1, h2⟩

/-! ## Claim C8: mission selection and NoMissionsAvailable -/

/-- The selection returns nothing exactly when the active catalog is empty:
the anti-repeat candidate list is a sub-filter of the active list, and the
fallback query over all active missions decides the outcome. -/
theorem selectNewMission_eq_none (choose : List Mission → Option Mission)
    (hnone : ∀ l, choose l = none ↔ l = [])
    (missions : List Mission) (recent : List Nat) :
    selectNewMission choose missions recent = none ↔
      missions.filter (fun m => m.isActive) = [] := by
  unfold selectNewMission
  constructor
  · intro h
    split at h
    · exact Option.noConfusion h
    · exact (hnone _).1 h
  · intro hA
    have hC : missions.filter
        (fun m => m.isActive && !(recent.contains m.id)) = [] := by
      rw [List.filter_eq_nil_iff] at hA ⊢
      intro a ha hpa
      simp only [Bool.and_eq_true] at hpa
      exact hA a ha hpa.1
    rw [(hnone _).2 hC]
    exact (hnone _).2 hA

/-- C8: when no assignment exists for (user, today), the handler signals
NoMissionsAvailable exactly when the active catalog is empty; otherwise it
appends a new pending assignment for today under the fresh id, picking an
active mission outside the recent list whenever one exists and falling back
to any active mission otherwise (so a full recent window with a small catalog
yields a repeat rather than a failure); and for states with no future-dated
assignments the recent list is exactly the missions assigned in the
trailing window [today-7, today]. -/
theorem selection_policy (choose : List Mission → Option Mission)
    (hmem : ∀ l m, choose l = some m → m ∈ l)
    (hnone : ∀ l, choose l = none ↔ l = [])
    (f : Nat) (w : World) (today : Nat)
    (hfind : w.assignments.find? (fun um => um.assignedDate == today) = none) :
    (getTodayAssignment choose f w today = Except.error Err.NoMissionsAvailable
      ↔ w.missions.filter (fun m => m.isActive) = [])
    ∧ (w.missions.filter (fun m => m.isActive) ≠ [] →
        ∃ nm, nm ∈ w.missions ∧ nm.isActive = true
          ∧ getTodayAssignment choose f w today =
              Except.ok ({ w with assignments :=
                w.assignments ++ [⟨f, nm.id, today, AStatus.pending⟩] }, f)
          ∧ ((∃ m ∈ w.missions, m.isActive = true
                ∧ ¬ m.id ∈ recentMissionIds w.assignments today) →
              ¬ nm.id ∈ recentMissionIds w.assignments today))
    ∧ (∀ mid, (∀ um ∈ w.assignments, um.assignedDate ≤ today) →
        (mid ∈ recentMissionIds w.assignments today ↔
          ∃ um ∈ w.assignments, um.missionId = mid
            ∧ today - 7 ≤ um.assignedDate ∧ um.assignedDate ≤ today)) := by
  have hok : ∀ nm, selectNewMission choose w.missions
      (recentMissionIds w.assignments today) = some nm →
      getTodayAssignment choose f w today =
        Except.ok ({ w with assignments :=
          w.assignments ++ [⟨f, nm.id, today, AStatus.pending⟩] }, f) := by
    intro nm hsel
    unfold getTodayAssignment
    rw [hfind]
    dsimp only
    rw [hsel]
    dsimp only
    rw [List.find?_append, hfind]
    simp [List.find?]
  refine ⟨⟨?_, ?_⟩, ?_, ?_⟩
  · intro h
    by_contra hA
    cases hsel : selectNewMission choose w.missions
        (recentMissionIds w.assignments today) with
    | none => exact hA ((selectNewMission_eq_none choose hnone _ _).1 hsel)
    | some nm =>
        rw [hok nm hsel] at h
        exact Except.noConfusion h
  · intro hA
    unfold getTodayAssignment
    rw [hfind]
    dsimp only
    rw [(selectNewMission_eq_none choose hnone _ _).2 hA]
  · intro hA
    cases hsel : selectNewMission choose w.missions
        (recentMissionIds w.assignments today) with
    | none => exact absurd ((selectNewMission_eq_none choose hnone _ _).1 hsel) hA
    | some nm =>
        have hprops : (nm ∈ w.missions ∧ nm.isActive = true
            ∧ ¬ nm.id ∈ recentMissionIds w.assignments today)
          ∨ (nm ∈ w.missions ∧ nm.isActive = true
            ∧ w.missions.filter (fun m => m.isActive
                && !((recentMissionIds w.assignments today).contains m.id))
                = []) := by
          unfold selectNewMission at hsel
          split at hsel
          · next m heqC =>
              injection hsel with hnmeq
              subst hnmeq
              left
              have hm := hmem _ _ heqC
              rw [List.mem_filter] at hm
              obtain ⟨hmem2, hcond⟩ := hm
              simp only [Bool.and_eq_true, Bool.not_eq_true'] at hcond
              refine ⟨hmem2, hcond.1, ?_⟩
              simpa using hcond.2
          · next heqC =>
              right
              have hm := hmem _ _ hsel
              rw [List.mem_filter] at hm
              exact ⟨hm.1, hm.2, (hnone _).1 heqC⟩
        rcases hprops with ⟨h1, h2, h3⟩ | ⟨h1, h2, h3⟩
        · exact ⟨nm, h1, h2, hok nm hsel, fun _ => h3⟩
        · refine ⟨nm, h1, h2, hok nm hsel, ?_⟩
          rintro ⟨m, hmm, hma, hmr⟩
          exfalso
          have hmC : m ∈ w.missions.filter (fun m => m.isActive
              && !((recentMissionIds w.assignments today).contains m.id)) := by
            rw [List.mem_filter]
            refine ⟨hmm, ?_⟩
            simp [hma, hmr]
          rw [h3] at hmC
          exact List.not_mem_nil m hmC
  · intro mid hdates
    unfold recentMissionIds
    simp only [List.mem_map, List.mem_filter]
    constructor
    · rintro ⟨um, ⟨hum, hge⟩, rfl⟩
      exact ⟨um, hum, rfl, by simpa using hge, hdates um hum⟩
    · rintro ⟨um, hum, hmid, hge, _hle⟩
      exact ⟨um, ⟨hum, by simpa using hge⟩, hmid⟩

/-- An empty-history world with one active mission, for the C8 witness. -/
def c8World : World := ⟨[⟨1, 1, 10, true⟩], [], [], c3Progress, [], []⟩

/-- C8 (witness): on the concrete world with an empty history the handler
does not fail and assigns the single active mission for today. -/
theorem selection_policy_witness :
    getTodayAssignment (fun l => l.head?) 9 c8World 3 =
      Except.ok ({ c8World with
        assignments := [⟨9, 1, 3, AStatus.pending⟩] }, 9) := by
  have hmem : ∀ (l : List Mission) m, (fun l => l.head?) l = some m → m ∈ l := by
    intro l m h
    cases l with
    | nil => exact Option.noConfusion h
    | cons a t =>
        injection h with h'
        subst h'
        exact List.mem_cons_self a t
  have hnone : ∀ (l : List Mission), (fun l => l.head?) l = none ↔ l = [] := by
    intro l
    cases l <;> simp
  have h := selection_policy (fun l => l.head?) hmem hnone 9 c8World 3 rfl
  obtain ⟨nm, hnm, hact, hokk, _⟩ := h.2.1 (by decide)
  have hnm1 : nm = ⟨1, 1, 10, true⟩ := by simpa [c8World] using hnm
  subst hnm1
  exact hokk

end ClimateGuardian
